import Mathlib

/-!
Verification development for the language-detection and function-extraction
engine of `src/app.py`.

The snippet text is modelled as `List Char`.  Python's `re` character classes
are modelled on their ASCII fragment: `\s` becomes `isSpc`, `\w` becomes
`isWordChar`, `[a-zA-Z_]` becomes `isIdentStart`, `[a-zA-Z]` becomes
`isAsciiAlpha`.  Each regular expression of the source is hand-compiled to an
executable matcher; every greedy/lazy sub-pattern whose continuation forces a
unique split is compiled to the corresponding deterministic `takeWhile` /
`dropWhile` step, and the remaining genuine backtracking choice points
(optional groups and alternations) are compiled to ordered `<|>` chains, in
the priority order Python's engine uses.
-/

/-- Python's `\s` (ASCII fragment): space, tab, newline, carriage return,
vertical tab, form feed. -/
def isSpc (c : Char) : Bool :=
  c == ' ' || c == '\t' || c == '\n' || c == '\r' || c == '\x0b' || c == '\x0c'

/-- Python's `\w` (ASCII fragment): letters, digits, underscore. -/
def isWordChar (c : Char) : Bool :=
  ('a' ≤ c && c ≤ 'z') || ('A' ≤ c && c ≤ 'Z') || ('0' ≤ c && c ≤ '9') || c == '_'

/-- The class `[a-zA-Z_]` heading identifiers in the source's patterns. -/
def isIdentStart (c : Char) : Bool :=
  ('a' ≤ c && c ≤ 'z') || ('A' ≤ c && c ≤ 'Z') || c == '_'

/-- The class `[a-zA-Z]`. -/
def isAsciiAlpha (c : Char) : Bool :=
  ('a' ≤ c && c ≤ 'z') || ('A' ≤ c && c ≤ 'Z')

/-- Match a literal string at the head of the input; on success return the
rest of the input.  Models a literal fragment of a regular expression. -/
def dropLit (w t : List Char) : Option (List Char) :=
  if w.isPrefixOf t then some (t.drop w.length) else none

/-- `\s+` followed by a non-space continuation: one whitespace character,
then greedily all further whitespace (the continuation in every use site
starts with a non-space character, so the greedy split is the unique one). -/
def ws1 : List Char → Option (List Char)
  | c :: cs => if isSpc c then some (cs.dropWhile isSpc) else none
  | [] => none

/-- `[a-zA-Z_][a-zA-Z0-9_]*`, greedily (every use site's continuation starts
with a non-word character, so the greedy split is the unique one).  Returns
the matched identifier and the rest. -/
def takeIdent (t : List Char) : Option (List Char × List Char) :=
  match t.takeWhile isWordChar with
  | [] => none
  | c :: cs => if isIdentStart c then some (c :: cs, t.drop (c :: cs).length) else none

/-- `[a-zA-Z0-9_]+`, greedily (same determinism remark as `takeIdent`). -/
def takeWord1 (t : List Char) : Option (List Char × List Char) :=
  match t.takeWhile isWordChar with
  | [] => none
  | c :: cs => some (c :: cs, t.drop (c :: cs).length)

/-- The suffixes of the text that start at a line start (after each `'\n'`);
`re.MULTILINE` makes `^` match exactly at these positions and at the start
of the whole text. -/
def lineSuffixesAux : List Char → List (List Char)
  | [] => []
  | c :: cs => if c = '\n' then cs :: lineSuffixesAux cs else lineSuffixesAux cs

/-- All positions where `^` matches under `re.MULTILINE`: the whole text and
the suffix after every newline. -/
def lineSuffixes (s : List Char) : List (List Char) :=
  s :: lineSuffixesAux s

/--
The enumerated language tags of the engine.  The source returns the strings
`'python'`, `'java'`, `'c++'`, `'javascript'`, `'plaintext'`; the `'c++'`
string is rendered here by the constructor `cpp` (the spec's name for it).
-/
inductive LanguageTag where
  | python
  | java
  | cpp
  | javascript
  | plaintext
deriving DecidableEq, Repr

/-- One line matches `\s*(def|class)\s+` (the part of the python rule after
`^`): optional whitespace (greedy: the continuation starts with `d`/`c`),
then `def` or `class`, then at least one whitespace character. -/
def pythonLine (t : List Char) : Bool :=
  let u := t.dropWhile isSpc
  (match dropLit "def".data u with
   | some (c :: _) => isSpc c
   | _ => false) ||
  (match dropLit "class".data u with
   | some (c :: _) => isSpc c
   | _ => false)

/-- `re.search(r'^\s*(def|class)\s+', s, re.MULTILINE)` as a Bool. -/
def pythonRule (s : List Char) : Bool :=
  (lineSuffixes s).any pythonLine

/-- One line matches `\s*public\s+(class|static\s+void\s+main)`. -/
def javaLine (t : List Char) : Bool :=
  let u := t.dropWhile isSpc
  match dropLit "public".data u with
  | some (c :: cs) =>
    isSpc c &&
      (let v := cs.dropWhile isSpc
       "class".data.isPrefixOf v ||
       (match dropLit "static".data v with
        | some (c2 :: cs2) =>
          isSpc c2 &&
            (let w := cs2.dropWhile isSpc
             match dropLit "void".data w with
             | some (c3 :: cs3) => isSpc c3 && "main".data.isPrefixOf (cs3.dropWhile isSpc)
             | _ => false)
        | _ => false))
  | _ => false

/-- `re.search(r'^\s*public\s+(class|static\s+void\s+main)', s, re.MULTILINE)`. -/
def javaRule (s : List Char) : Bool :=
  (lineSuffixes s).any javaLine

/-- One line matches `\s*(#include|int\s+main)` or `\s*using\s+namespace`
(the two C++ searches of the source, OR-ed). -/
def cppLine (t : List Char) : Bool :=
  let u := t.dropWhile isSpc
  "#include".data.isPrefixOf u ||
  (match dropLit "int".data u with
   | some (c :: cs) => isSpc c && "main".data.isPrefixOf (cs.dropWhile isSpc)
   | _ => false) ||
  (match dropLit "using".data u with
   | some (c :: cs) => isSpc c && "namespace".data.isPrefixOf (cs.dropWhile isSpc)
   | _ => false)

/-- The C++ rule of `guess_language` (both `re.search` calls of line 22). -/
def cppRule (s : List Char) : Bool :=
  (lineSuffixes s).any cppLine

/-- One line matches `\s*(function|const\s+\w+\s*=\s*\(|import|export)`. -/
def jsLine (t : List Char) : Bool :=
  let u := t.dropWhile isSpc
  "function".data.isPrefixOf u ||
  "import".data.isPrefixOf u ||
  "export".data.isPrefixOf u ||
  (match dropLit "const".data u with
   | some (c :: cs) =>
     isSpc c &&
       (let v := cs.dropWhile isSpc
        match takeWord1 v with
        | some (_, r) =>
          (match (r.dropWhile isSpc) with
           | '=' :: r2 =>
             (match r2.dropWhile isSpc with
              | '(' :: _ => true
              | _ => false)
           | _ => false)
        | none => false)
   | _ => false)

/-- `re.search(r'^\s*(function|const\s+\w+\s*=\s*\(|import|export)', s, re.MULTILINE)`. -/
def jsRule (s : List Char) : Bool :=
  (lineSuffixes s).any jsLine

/-- `guess_language` of `src/app.py` (lines 17–26): the ordered cascade of
the four rules, defaulting to `plaintext`. -/
def guess_language (s : List Char) : LanguageTag :=
  if pythonRule s then .python
  else if javaRule s then .java
  else if cppRule s then .cpp
  else if jsRule s then .javascript
  else .plaintext

/-!
## The composite extraction pattern (src/app.py line 44)

```
(?:(?:(?:public|private|protected)\s+)?(?:static\s+)?(?:final\s+)?(?:void|[a-zA-Z_][a-zA-Z0-9_]*)\s+([a-zA-Z_][a-zA-Z0-9_]*)\s*\([^)]*\)\s*\{)
|(?:(?:[a-zA-Z_][a-zA-Z0-9_]*::)?([a-zA-Z_][a-zA-Z0-9_]*)\s*\([^)]*\)\s*(?:const|noexcept)?\s*\{)
|(?:function\s+([a-zA-Z0-9_]+)\s*\(.*?\))
|(?:(?:const|let|var)\s+([a-zA-Z0-9_]+)\s*=\s*(?:function)?\s*\(.*?\))
|(?:def\s+([a-zA-Z_][a-zA-Z0-9_]*)\s*\(.*?\)\s*:)
|(?:([a-zA-Z0-9_]+)\s*\([^)]*\)\s*\{)
```

Each alternative is compiled to a matcher `Option (List Char × List Char)`
returning the captured name and the rest of the input after the match.
A successful match always consumes at least one character.
-/

/-- `\([^)]*\)` followed by `k`: `[^)]*` cannot contain `)` and is followed by
`\)`, so the unique split takes every character up to the first `)`. Consumes
through the `)` and returns the rest. -/
def parenNoClose : List Char → Option (List Char)
  | '(' :: r =>
    let body := r.takeWhile (fun c => !(c == ')'))
    match r.drop body.length with
    | ')' :: r2 => some r2
    | _ => none
  | _ => none

/-- `\(.*?\)`: lazy `.*?` cannot contain a newline; the match ends at the
first `)` reachable without crossing `'\n'`.  Consumes through the `)`. -/
def lazyClose : List Char → Option (List Char)
  | [] => none
  | ')' :: r => some r
  | '\n' :: _ => none
  | _ :: r => lazyClose r

/-- `\(.*?\)\s*:` of the composite def alternative: lazy expansion tries each
`)` in order (not crossing `'\n'`) and succeeds at the first one followed by
`\s*:`.  Consumes through the `:`. -/
def lazyCloseColon : List Char → Option (List Char)
  | [] => none
  | c :: r =>
    if c = '\n' then none
    else if c = ')' then
      match r.dropWhile isSpc with
      | ':' :: r2 => some r2
      | _ => lazyCloseColon r
    else lazyCloseColon r

/-- `\s*\{` ending the java/c++/brace alternatives. -/
def braceAfterWs (t : List Char) : Option (List Char) :=
  match t.dropWhile isSpc with
  | '{' :: r => some r
  | _ => none

/-- The part of alternative 1 after the optional qualifiers and the return
type: `\s+([a-zA-Z_][a-zA-Z0-9_]*)\s*\([^)]*\)\s*\{`. -/
def tailA (t : List Char) : Option (List Char × List Char) :=
  match ws1 t with
  | none => none
  | some r1 =>
    match takeIdent r1 with
    | none => none
    | some (nm, r2) =>
      match parenNoClose (r2.dropWhile isSpc) with
      | none => none
      | some r3 =>
        match braceAfterWs r3 with
        | none => none
        | some r4 => some (nm, r4)

/-- `(?:void|[a-zA-Z_][a-zA-Z0-9_]*)` followed by `tailA`, in the engine's
order: the literal `void` branch first, the identifier branch on failure. -/
def typA (t : List Char) : Option (List Char × List Char) :=
  (match dropLit "void".data t with
   | some r => tailA r
   | none => none) <|>
  (match takeIdent t with
   | some (_, r) => tailA r
   | none => none)

/-- `(?:final\s+)?` then the return type: present branch first. -/
def finalOpt (t : List Char) : Option (List Char × List Char) :=
  (match dropLit "final".data t with
   | some r =>
     match ws1 r with
     | some r2 => typA r2
     | none => none
   | none => none) <|> typA t

/-- `(?:static\s+)?` then `finalOpt`: present branch first. -/
def staticOpt (t : List Char) : Option (List Char × List Char) :=
  (match dropLit "static".data t with
   | some r =>
     match ws1 r with
     | some r2 => finalOpt r2
     | none => none
   | none => none) <|> finalOpt t

/-- Alternative 1 (java-style method declaration):
`(?:(?:public|private|protected)\s+)?(?:static\s+)?(?:final\s+)?(?:void|[a-zA-Z_][a-zA-Z0-9_]*)\s+([a-zA-Z_][a-zA-Z0-9_]*)\s*\([^)]*\)\s*\{`.
The three optional qualifier groups backtrack from present to absent. -/
def tryA (t : List Char) : Option (List Char × List Char) :=
  (match (dropLit "public".data t <|> dropLit "private".data t <|> dropLit "protected".data t) with
   | some r =>
     match ws1 r with
     | some r2 => staticOpt r2
     | none => none
   | none => none) <|> staticOpt t

/-- The part of alternative 2 after the optional `Type::` qualifier:
`([a-zA-Z_][a-zA-Z0-9_]*)\s*\([^)]*\)\s*(?:const|noexcept)?\s*\{`. -/
def tailB (t : List Char) : Option (List Char × List Char) :=
  match takeIdent t with
  | none => none
  | some (nm, r1) =>
    match parenNoClose (r1.dropWhile isSpc) with
    | none => none
    | some r2 =>
      let r3 := r2.dropWhile isSpc
      match ((match dropLit "const".data r3 with
              | some r4 => braceAfterWs r4
              | none => none) <|>
             (match dropLit "noexcept".data r3 with
              | some r4 => braceAfterWs r4
              | none => none) <|>
             braceAfterWs r3) with
      | some r5 => some (nm, r5)
      | none => none

/-- Alternative 2 (c++-style definition):
`(?:[a-zA-Z_][a-zA-Z0-9_]*::)?([a-zA-Z_][a-zA-Z0-9_]*)\s*\([^)]*\)\s*(?:const|noexcept)?\s*\{`. -/
def tryB (t : List Char) : Option (List Char × List Char) :=
  (match takeIdent t with
   | some (_, r) =>
     match dropLit "::".data r with
     | some r2 => tailB r2
     | none => none
   | none => none) <|> tailB t

/-- Alternative 3: `function\s+([a-zA-Z0-9_]+)\s*\(.*?\)`. -/
def tryC (t : List Char) : Option (List Char × List Char) :=
  match dropLit "function".data t with
  | none => none
  | some r =>
    match ws1 r with
    | none => none
    | some r1 =>
      match takeWord1 r1 with
      | none => none
      | some (nm, r2) =>
        match r2.dropWhile isSpc with
        | '(' :: r3 =>
          match lazyClose r3 with
          | some r4 => some (nm, r4)
          | none => none
        | _ => none

/-- `(?:function)?\s*\(.*?\)` ending alternative 4: present branch first. -/
def funcOptParen (t : List Char) : Option (List Char) :=
  (match dropLit "function".data t with
   | some r =>
     match r.dropWhile isSpc with
     | '(' :: r2 => lazyClose r2
     | _ => none
   | none => none) <|>
  (match t.dropWhile isSpc with
   | '(' :: r2 => lazyClose r2
   | _ => none)

/-- Alternative 4: `(?:const|let|var)\s+([a-zA-Z0-9_]+)\s*=\s*(?:function)?\s*\(.*?\)`. -/
def tryD (t : List Char) : Option (List Char × List Char) :=
  match (dropLit "const".data t <|> dropLit "let".data t <|> dropLit "var".data t) with
  | none => none
  | some r =>
    match ws1 r with
    | none => none
    | some r1 =>
      match takeWord1 r1 with
      | none => none
      | some (nm, r2) =>
        match r2.dropWhile isSpc with
        | '=' :: r3 =>
          match funcOptParen (r3.dropWhile isSpc) with
          | some r4 => some (nm, r4)
          | none => none
        | _ => none

/-- Alternative 5: `def\s+([a-zA-Z_][a-zA-Z0-9_]*)\s*\(.*?\)\s*:`. -/
def tryE (t : List Char) : Option (List Char × List Char) :=
  match dropLit "def".data t with
  | none => none
  | some r =>
    match ws1 r with
    | none => none
    | some r1 =>
      match takeIdent r1 with
      | none => none
      | some (nm, r2) =>
        match r2.dropWhile isSpc with
        | '(' :: r3 =>
          match lazyCloseColon r3 with
          | some r4 => some (nm, r4)
          | none => none
        | _ => none

/-- Alternative 6: `([a-zA-Z0-9_]+)\s*\([^)]*\)\s*\{`. -/
def tryF (t : List Char) : Option (List Char × List Char) :=
  match takeWord1 t with
  | none => none
  | some (nm, r1) =>
    match parenNoClose (r1.dropWhile isSpc) with
    | none => none
    | some r2 =>
      match braceAfterWs r2 with
      | some r3 => some (nm, r3)
      | none => none

/-- The whole composite pattern at one position: the six alternatives in the
source's order. -/
def matchAlts (t : List Char) : Option (List Char × List Char) :=
  tryA t <|> tryB t <|> tryC t <|> tryD t <|> tryE t <|> tryF t

/-- `re.findall` scan of the composite pattern: try the pattern at each
position from left to right; on a match collect the one non-empty capture
(each alternative has exactly one group) and resume after the match.  Every
match consumes at least one character, so fuel `s.length` always suffices. -/
def scanAux : Nat → List Char → List (List Char)
  | 0, _ => []
  | _ + 1, [] => []
  | n + 1, t@(_ :: cs) =>
    match matchAlts t with
    | some (nm, rest) => nm :: scanAux n rest
    | none => scanAux n cs

/-- All captures of `re.findall(regex, code_snippet, re.MULTILINE)` on the
composite pattern (the pattern has no anchors, so `re.MULTILINE` is inert). -/
def scanNames (s : List Char) : List (List Char) :=
  scanAux s.length s

/-- `re.search(r'\s+main\s*\(', code_snippet)` (src/app.py line 51): somewhere
in the text, one whitespace character directly followed by `main`, optional
whitespace, `(`.  (`\s+` must end right before the literal `m`, so a single
leading whitespace character characterises a match.) -/
def hasMainCallAux : List Char → Bool
  | [] => false
  | c :: cs =>
    (isSpc c &&
      (match dropLit "main".data cs with
       | some r =>
         (match r.dropWhile isSpc with
          | '(' :: _ => true
          | _ => false)
       | none => false)) ||
    hasMainCallAux cs

/-- Whether the cross-cutting `main` detector fires on the snippet. -/
def hasMainCall (s : List Char) : Bool :=
  hasMainCallAux s

/-- `keywords_to_exclude` of src/app.py line 31. -/
def keywords_to_exclude : List (List Char) :=
  ["for".data, "if".data, "while".data, "switch".data, "catch".data,
   "do".data, "class".data, "new".data]

/-- Insert a name into a sorted duplicate-free list, keeping it sorted and
duplicate-free (used to model Python's `sorted(list(<set>))`). -/
def insertName (x : List Char) : List (List Char) → List (List Char)
  | [] => [x]
  | y :: ys => if x < y then x :: y :: ys else if x = y then y :: ys else y :: insertName x ys

/-- `sorted(list(set(l)))`: the sorted, duplicate-free list of the elements
of `l`, under Python's lexicographic string order. -/
def sortDedup : List (List Char) → List (List Char)
  | [] => []
  | x :: xs => insertName x (sortDedup xs)

/-!
## The python branch (src/app.py lines 33–42)

`ast.parse` and `ast.walk` are Python-standard-library code external to the
repository; the branch is therefore parameterised by the outcome of the
structured parse, exactly mirroring the source's `try/except SyntaxError/
except Exception` shape.
-/

/-- Outcome of the structured parse attempt `ast.parse` + collecting
`ast.FunctionDef` names: success with the collected names, a `SyntaxError`,
or any other exception. -/
inductive PyParseOutcome where
  | parsed (names : List (List Char))
  | syntaxError
  | otherError
deriving DecidableEq

/-- `\(.*?\):` of the fallback pattern (note: no `\s*` before the `:` here):
lazy expansion tries each `)` in order (not crossing `'\n'`) and succeeds at
the first one directly followed by `:`.  Consumes through the `:`. -/
def pyLazyCloseColon : List Char → Option (List Char)
  | [] => none
  | '\n' :: _ => none
  | ')' :: r =>
    (match r with
     | ':' :: r2 => some r2
     | _ => pyLazyCloseColon r)
  | _ :: r => pyLazyCloseColon r

/-- One attempt of the fallback pattern
`^\s*def\s+(\w+)\s*\(.*?\):` at a line-start position: leading `\s*`
(greedy, may cross newlines), literal `def`, `\s+`, the captured `\w+`,
`\s*`, `(`, lazy `.*?` (no newline) up to a `)` directly followed by `:`.
Returns the capture and the rest after the `:`. -/
def pyDefMatch (t : List Char) : Option (List Char × List Char) :=
  match dropLit "def".data (t.dropWhile isSpc) with
  | none => none
  | some r =>
    match ws1 r with
    | none => none
    | some r1 =>
      match takeWord1 r1 with
      | none => none
      | some (nm, r2) =>
        match r2.dropWhile isSpc with
        | '(' :: r3 =>
          match pyLazyCloseColon r3 with
          | some r4 => some (nm, r4)
          | none => none
        | _ => none

/-- `re.findall(r'^\s*def\s+(\w+)\s*\(.*?\):', s, re.MULTILINE)`: scan left
to right, attempting the anchored pattern only at line starts (`^` under
`re.MULTILINE`); on a match collect the capture and resume after it (a match
ends at `:`, never at a newline, so the resume position is not a line
start). -/
def pyScanAux : Nat → Bool → List Char → List (List Char)
  | 0, _, _ => []
  | _ + 1, _, [] => []
  | n + 1, atStart, t@(c :: cs) =>
    if atStart then
      match pyDefMatch t with
      | some (nm, rest) => nm :: pyScanAux n false rest
      | none => pyScanAux n (c == '\n') cs
    else pyScanAux n (c == '\n') cs

/-- All captures of the fallback regex of src/app.py lines 38–39. -/
def pyDefFallback (s : List Char) : List (List Char) :=
  pyScanAux s.length true s

/-- The python branch of `extract_functions` (src/app.py lines 33–42): the
structured-parse names on success; the fallback captures on `SyntaxError`;
the empty set on any other exception. -/
def pythonNames (parse : List Char → PyParseOutcome) (s : List Char) : List (List Char) :=
  match parse s with
  | .parsed names => names
  | .syntaxError => pyDefFallback s
  | .otherError => []

/-- `extract_functions` of src/app.py (lines 29–54), parameterised by the
structured-parse capability used by the python branch.  The collected names
(python branch or composite-pattern scan), with `main` added when the
cross-cutting detector fires, minus `keywords_to_exclude`, as a sorted
duplicate-free list — `sorted(list(functions - keywords_to_exclude))` on the
set of names. -/
def extract_functions (parse : List Char → PyParseOutcome)
    (code_snippet : List Char) (language : LanguageTag) : List (List Char) :=
  let functions : List (List Char) :=
    if language = .python then pythonNames parse code_snippet
    else scanNames code_snippet
  let functions :=
    if hasMainCall code_snippet then functions ++ ["main".data] else functions
  sortDedup (functions.filter fun n => decide (n ∉ keywords_to_exclude))

/-- The response of the `/functions` endpoint (src/app.py lines 57–66). -/
structure DetectResult where
  language : LanguageTag
  functions : List (List Char)
deriving DecidableEq

/-- `detect_and_extract` — the body of `get_functions_from_code`
(src/app.py lines 58–66): classify, extract, prepend the `"All Code"`
sentinel. -/
def detect_and_extract (parse : List Char → PyParseOutcome)
    (code_snippet : List Char) : DetectResult :=
  let language := guess_language code_snippet
  let functions := extract_functions parse code_snippet language
  ⟨language, "All Code".data :: functions⟩

/-- A structured-parse capability that always signals a non-syntax failure;
used to instantiate the `parse` parameter in concrete scenarios whose snippet
is not python-tagged (the parameter is then never consulted). -/
def astFail : List Char → PyParseOutcome := fun _ => PyParseOutcome.otherError

example : guess_language "def add(a, b):\n    return a + b".data = .python := by decide
example : guess_language "public static void main(String[] args) { }".data = .java := by decide
example : guess_language "#include <iostream>\nint main() { return 0; }".data = .cpp := by decide
example : guess_language "function greet(name) { return name; }".data = .javascript := by decide
example : guess_language "".data = .plaintext := by decide
example : guess_language "let x = 5".data = .plaintext := by decide
example : guess_language "const f = (x) => x".data = .javascript := by decide

/-!
## The `/comment` endpoint (src/app.py lines 69–113)

The LLM call (lines 81–97) is an external collaborator — the spec's
Annotation Service.  It is modelled as a parameter receiving the snippet and
the annotation scope the endpoint computes for it, and returning either the
raw response text or an exception message (caught by the endpoint's
`try/except`).
-/

/-- The scope the endpoint selects on line 85: a specific function when
`function_name` is truthy and not `"All Code"`, the whole snippet
otherwise. -/
inductive CommentScope where
  | whole
  | onlyFunction (name : List Char)
deriving DecidableEq

/-- `if function_name and function_name != "All Code"` (line 85):
`None` and the empty string are falsy. -/
def commentScope (function_name : Option (List Char)) : CommentScope :=
  match function_name with
  | none => .whole
  | some nm => if nm = [] then .whole else if nm = "All Code".data then .whole else .onlyFunction nm

/-- The literal ` ``` ` fence of the response-extraction regex. -/
def fence : List Char := "```".data

/-- ` ```(?:[a-zA-Z]+)?\n ` at the head of the input: the fence, an optional
greedy run of letters, then a newline.  (If the greedy letter run is not
followed by a newline, no shorter run can be — a letter is not a newline —
so the optional group reduces to `dropWhile isAsciiAlpha`.) -/
def fenceOpen (t : List Char) : Option (List Char) :=
  match dropLit fence t with
  | none => none
  | some r =>
    match r.dropWhile isAsciiAlpha with
    | '\n' :: r2 => some r2
    | _ => none

/-- `([\s\S]*?)` up to the closing fence: the capture runs to the first
occurrence of ` ``` `. -/
def untilFence : List Char → Option (List Char)
  | [] => none
  | c :: cs =>
    if fence.isPrefixOf (c :: cs) then some []
    else (untilFence cs).map (c :: ·)

/-- `re.compile(r'```(?:[a-zA-Z]+)?\n([\s\S]*?)```').search(llm_text)` and
`match.group(1)` (src/app.py lines 99–105): the first position where the
whole pattern matches yields the captured block. -/
def extractCodeBlock : List Char → Option (List Char)
  | [] => none
  | c :: cs =>
    match fenceOpen (c :: cs) with
    | some r =>
      (match untilFence r with
       | some content => some content
       | none => extractCodeBlock cs)
    | none => extractCodeBlock cs

/-- The observable outcomes of the `/comment` endpoint: the 400
`"Missing code snippet"` response, the 500 response when no code block can
be extracted from the service's reply, the 500 response when the service
raises, and the 200 response carrying the commented code and the guessed
language. -/
inductive CommentOutcome where
  | missingSnippet
  | noCodeBlock
  | serviceError (msg : List Char)
  | success (commented : List Char) (language : LanguageTag)
deriving DecidableEq

/-- `comment_code` of src/app.py (lines 70–113), parameterised by the
Annotation Service.  A missing (`None`) or empty snippet is rejected first
with the 400 error; otherwise the language is guessed, the service is
invoked with the computed scope, its exceptions surface as 500 errors, a
reply without a recognizable code block surfaces as the extraction error,
and otherwise the captured block is returned with the language. -/
def comment_code (svc : List Char → CommentScope → Except (List Char) (List Char))
    (code_snippet : Option (List Char)) (function_name : Option (List Char)) :
    CommentOutcome :=
  match code_snippet with
  | none => .missingSnippet
  | some c =>
    if c = [] then .missingSnippet
    else
      let language := guess_language c
      match svc c (commentScope function_name) with
      | .error e => .serviceError e
      | .ok text =>
        match extractCodeBlock text with
        | none => .noCodeBlock
        | some block => .success block language

example : scanNames "#include <iostream>\nint main() { return 0; }".data = ["main".data] := by decide
example : scanNames "function greet(name) { return name; }".data = ["greet".data] := by decide
example : scanNames "public static void main(String[] args) { }".data = ["main".data] := by decide
example : scanNames "function f(def g(a):)".data = ["f".data] := by decide
example : scanNames "x def g(a):".data = ["g".data] := by decide
example : scanNames "foo(\ndef g(x) \x7b) :".data = ["foo".data] := by decide
example : scanNames "const f = (x) => x".data = ["f".data] := by decide
example : scanNames "if (x) { y(); }".data = ["if".data] := by decide
example : scanNames "int main() { while (1) { x(); } }".data = ["main".data, "while".data] := by decide
example : scanNames "void A::run() const { }".data = ["run".data] := by decide
example : scanNames "public int foo(x) \x7b".data = ["foo".data] := by decide
example : scanNames "let callback = function (a,b) \x7b".data = ["callback".data] := by decide
example : extract_functions astFail "if (x) { y(); }".data .plaintext = [] := by decide
example : detect_and_extract astFail "#include <iostream>\nint main() { return 0; }".data =
    ⟨.cpp, ["All Code".data, "main".data]⟩ := by decide
example : detect_and_extract astFail "".data = ⟨.plaintext, ["All Code".data]⟩ := by decide
example : pyDefFallback "def add(a, b):\n    return a + b".data = ["add".data] := by decide

/-!
## Properties of `sortDedup`
-/

theorem mem_insertName {x a : List Char} {l : List (List Char)} :
    a ∈ insertName x l ↔ a = x ∨ a ∈ l := by
  induction l with
  | nil => simp [insertName]
  | cons y ys ih =>
    simp only [insertName]
    split
    · simp [List.mem_cons, or_assoc]
    · split
      · rename_i hxy
        subst hxy
        simp [List.mem_cons]
      · simp [List.mem_cons, ih]
        tauto

theorem pairwise_insertName {x : List Char} {l : List (List Char)}
    (h : l.Pairwise (· < ·)) : (insertName x l).Pairwise (· < ·) := by
  induction l with
  | nil => simp [insertName]
  | cons y ys ih =>
    rw [List.pairwise_cons] at h
    simp only [insertName]
    split
    · rename_i hxy
      refine List.pairwise_cons.mpr ⟨?_, List.pairwise_cons.mpr h⟩
      intro b hb
      rcases List.mem_cons.mp hb with rfl | hb'
      · exact hxy
      · exact lt_trans hxy (h.1 b hb')
    · split
      · exact List.pairwise_cons.mpr h
      · rename_i hnlt hne
        have hyx : y < x := by
          rcases lt_trichotomy x y with h1 | h2 | h3
          · exact absurd h1 hnlt
          · exact absurd h2 hne
          · exact h3
        refine List.pairwise_cons.mpr ⟨?_, ih h.2⟩
        intro b hb
        rcases mem_insertName.mp hb with rfl | hb'
        · exact hyx
        · exact h.1 b hb'

theorem sortDedup_pairwise (l : List (List Char)) : (sortDedup l).Pairwise (· < ·) := by
  induction l with
  | nil => simp [sortDedup]
  | cons x xs ih => exact pairwise_insertName ih

theorem mem_sortDedup {a : List Char} {l : List (List Char)} :
    a ∈ sortDedup l ↔ a ∈ l := by
  induction l with
  | nil => simp [sortDedup]
  | cons x xs ih =>
    simp only [sortDedup]
    rw [mem_insertName, ih, List.mem_cons]

/-!
## Claims about the classifier and the extraction pipeline
-/

/-- C1.  `classify` is total: for every snippet it returns exactly one of the
five enumerated tags, and when none of the four language rules fires it
returns `plaintext` — never an error. -/
theorem C1_classify_total : ∀ s : List Char,
    (guess_language s = .python ∨ guess_language s = .java ∨ guess_language s = .cpp ∨
     guess_language s = .javascript ∨ guess_language s = .plaintext) ∧
    (pythonRule s = false → javaRule s = false → cppRule s = false → jsRule s = false →
      guess_language s = .plaintext) := by
  intro s
  constructor
  · by_cases h1 : pythonRule s <;> by_cases h2 : javaRule s <;>
      by_cases h3 : cppRule s <;> by_cases h4 : jsRule s <;>
      simp [guess_language, h1, h2, h3, h4]
  · intro h1 h2 h3 h4
    simp [guess_language, h1, h2, h3, h4]

/-- Witness for C1 at a concrete non-matching snippet. -/
theorem C1_classify_total_witness : guess_language "hello world".data = .plaintext :=
  (C1_classify_total "hello world".data).2 (by decide) (by decide) (by decide) (by decide)

/-- C2.  For every snippet (empty or not, symbols found or not), the first
element of the rendered functions list is the literal sentinel `"All Code"`. -/
theorem C2_sentinel_first : ∀ (parse : List Char → PyParseOutcome) (s : List Char),
    ((detect_and_extract parse s).functions).head? = some "All Code".data := by
  intro parse s
  rfl

/-- C3.  No member of `keywords_to_exclude` ever appears in the rendered
functions list (and hence in the extracted symbol set). -/
theorem C3_no_excluded_keywords : ∀ (parse : List Char → PyParseOutcome) (s x : List Char),
    x ∈ keywords_to_exclude → x ∉ (detect_and_extract parse s).functions := by
  intro parse s x hx hmem
  simp only [detect_and_extract] at hmem
  rcases List.mem_cons.mp hmem with rfl | hmem'
  · exact absurd hx (by decide)
  · unfold extract_functions at hmem'
    have h2 := List.mem_filter.mp (mem_sortDedup.mp hmem')
    exact of_decide_eq_true h2.2 hx

/-- Witness for C3: a snippet whose only call-shaped token is the keyword
`if`. -/
theorem C3_no_excluded_keywords_witness :
    "if".data ∉ (detect_and_extract astFail "if (x) { y(); }".data).functions :=
  C3_no_excluded_keywords astFail "if (x) { y(); }".data "if".data (by decide)

/-- C4.  The portion of the rendered functions list after the sentinel is
sorted in ascending lexicographic order and contains no duplicates. -/
theorem C4_sorted_nodup : ∀ (parse : List Char → PyParseOutcome) (s : List Char),
    List.Sorted (· < ·) ((detect_and_extract parse s).functions.tail) ∧
    ((detect_and_extract parse s).functions.tail).Nodup := by
  intro parse s
  have htail : (detect_and_extract parse s).functions.tail =
      extract_functions parse s (guess_language s) := rfl
  rw [htail]
  have hsorted :
      (extract_functions parse s (guess_language s)).Pairwise (· < ·) :=
    sortDedup_pairwise _
  exact ⟨hsorted, hsorted.imp ne_of_lt⟩

/-- C5.  Independently of the branch taken, whenever the snippet contains a
function-call-shaped occurrence of `main(` (the `\s+main\s*\(` detector),
`main` is a member of the extracted symbol set. -/
theorem C5_main_added : ∀ (parse : List Char → PyParseOutcome) (s : List Char)
    (lang : LanguageTag), hasMainCall s = true →
    "main".data ∈ extract_functions parse s lang := by
  intro parse s lang h
  unfold extract_functions
  simp only [h, if_true]
  refine mem_sortDedup.mpr (List.mem_filter.mpr ⟨?_, by decide⟩)
  exact List.mem_append_right _ (by simp)

/-- Witness for C5 on a concrete c++-style snippet. -/
theorem C5_main_added_witness :
    "main".data ∈ extract_functions astFail "int main() { return 0; }".data .cpp :=
  C5_main_added astFail "int main() { return 0; }".data .cpp (by decide)

/-- C8.  The scenario snippet `"#include <iostream>\nint main() { return 0; }"`
is tagged `cpp` and its functions list includes `main`. -/
theorem C8_cpp_main_scenario :
    (detect_and_extract astFail "#include <iostream>\nint main() { return 0; }".data).language
        = .cpp ∧
    "main".data ∈
      (detect_and_extract astFail "#include <iostream>\nint main() { return 0; }".data).functions := by
  decide

/-- C6, counterexample.  The snippet `"let x = 5"` fires none of the
python/java/cpp rules and contains the keyword `let`, yet the classifier
returns `plaintext`, not `javascript`: the code's javascript rule is
`^\s*(function|const\s+\w+\s*=\s*\(|import|export)` — it has no `let` or
`var` alternative and requires an assignment-to-parenthesis shape after
`const`. -/
theorem C6_counterexample :
    pythonRule "let x = 5".data = false ∧
    javaRule "let x = 5".data = false ∧
    cppRule "let x = 5".data = false ∧
    ("let".data <:+: "let x = 5".data) ∧
    guess_language "let x = 5".data ≠ .javascript ∧
    guess_language "let x = 5".data = .plaintext := by
  decide

/-- C6, amended.  When none of the python/java/cpp rules fires, the snippet
is tagged `javascript` exactly when the code's javascript rule fires: a line
whose first non-whitespace content starts with `function`, `import` or
`export`, or a `const <name> = (` assignment shape — bare `let`, `var` or
`const` do not trigger it. -/
theorem C6_js_rule_amended : ∀ s : List Char,
    pythonRule s = false → javaRule s = false → cppRule s = false →
    jsRule s = true → guess_language s = .javascript := by
  intro s h1 h2 h3 h4
  simp [guess_language, h1, h2, h3, h4]

/-- Witness for the amended C6 at a concrete `import` snippet. -/
theorem C6_js_rule_amended_witness : guess_language "import x".data = .javascript :=
  C6_js_rule_amended "import x".data (by decide) (by decide) (by decide) (by decide)

/-- C7.  The python branch: the structured-parse names are used on success;
a `SyntaxError` is recovered locally by falling back to the line-anchored
`def <name>(...):` pattern; if the parse fails otherwise (and likewise when
the fallback captures nothing) the branch yields the empty set — the branch
is a total function, so the failure never surfaces to the caller. -/
theorem C7_python_parse_fallback : ∀ (parse : List Char → PyParseOutcome) (s : List Char),
    (∀ names, parse s = .parsed names → pythonNames parse s = names) ∧
    (parse s = .syntaxError → pythonNames parse s = pyDefFallback s) ∧
    (parse s = .syntaxError → pyDefFallback s = [] → pythonNames parse s = []) ∧
    (parse s = .otherError → pythonNames parse s = []) := by
  intro parse s
  refine ⟨?_, ?_, ?_, ?_⟩
  · intro names h
    simp [pythonNames, h]
  · intro h
    simp [pythonNames, h]
  · intro h hf
    simp [pythonNames, h, hf]
  · intro h
    simp [pythonNames, h]

/-- Witness for C7: a parse capability that reports a `SyntaxError` on a
fragment; the branch equals the fallback captures. -/
theorem C7_python_parse_fallback_witness :
    pythonNames (fun _ => PyParseOutcome.syntaxError) "  def f(x):\n".data
      = pyDefFallback "  def f(x):\n".data :=
  (C7_python_parse_fallback (fun _ => PyParseOutcome.syntaxError) "  def f(x):\n".data).2.1 rfl

/-- C9.  The `/comment` endpoint signals a missing or empty snippet as the
distinct malformed-input outcome, and never produces that outcome for a
present non-empty snippet (a snippet with zero symbols is a valid non-error
result of the extraction pipeline, not this error). -/
theorem C9_missing_snippet :
    ∀ (svc : List Char → CommentScope → Except (List Char) (List Char))
      (fn : Option (List Char)),
    comment_code svc none fn = .missingSnippet ∧
    comment_code svc (some []) fn = .missingSnippet ∧
    ∀ c : List Char, c ≠ [] → comment_code svc (some c) fn ≠ .missingSnippet := by
  intro svc fn
  refine ⟨rfl, rfl, ?_⟩
  intro c hc
  unfold comment_code
  simp only [if_neg hc]
  cases svc c (commentScope fn) with
  | error e => simp
  | ok text => cases h : extractCodeBlock text <;> simp [h]

/-- Witness for C9: a present one-character snippet is never reported as
missing, whatever the annotation service does. -/
theorem C9_missing_snippet_witness :
    comment_code (fun _ _ => Except.error "down".data) (some "x".data) none ≠ .missingSnippet :=
  (C9_missing_snippet (fun _ _ => Except.error "down".data) none).2.2 "x".data (by decide)

/-- C10, counterexample.  The snippet `"function f(def g(a):)"` is tagged
`javascript` (non-python) and contains the def-shaped occurrence
`def g(a):`, yet `g` is not extracted: the leftmost composite-pattern match
(`function f(def g(a)` via the `function` alternative, whose lazy `.*?`
stops at the first `)`) consumes the `def` occurrence, so the def
alternative never fires on it. -/
theorem C10_counterexample :
    guess_language "function f(def g(a):)".data = .javascript ∧
    ("def g(a):".data <:+: "function f(def g(a):)".data) ∧
    "g".data ∉ (detect_and_extract astFail "function f(def g(a):)".data).functions ∧
    "f".data ∈ (detect_and_extract astFail "function f(def g(a):)".data).functions := by
  decide

/-!
## Character-class and scanning lemmas for the amended C10
-/

theorem isSpc_elim {c : Char} (h : isSpc c = true) :
    c = ' ' ∨ c = '\t' ∨ c = '\n' ∨ c = '\r' ∨ c = '\x0b' ∨ c = '\x0c' := by
  simp only [isSpc, Bool.or_eq_true, beq_iff_eq] at h
  tauto

theorem identStart_isWordChar {c : Char} (h : isIdentStart c = true) : isWordChar c = true := by
  simp only [isIdentStart, Bool.or_eq_true, Bool.and_eq_true, beq_iff_eq] at h
  simp only [isWordChar, Bool.or_eq_true, Bool.and_eq_true, beq_iff_eq]
  tauto

theorem identStart_not_spc {c : Char} (h : isIdentStart c = true) : isSpc c = false := by
  by_contra hc
  rw [Bool.not_eq_false] at hc
  rcases isSpc_elim hc with rfl | rfl | rfl | rfl | rfl | rfl <;> exact absurd h (by decide)

theorem identStart_ne {c x : Char} (h : isIdentStart c = true)
    (hx : isIdentStart x = false) : c ≠ x := by
  intro he
  subst he
  simp [h] at hx

theorem takeWhile_append_cons {p : Char → Bool} (u : List Char) (c : Char) (r : List Char)
    (hu : ∀ a ∈ u, p a = true) (hc : p c = false) :
    ((u ++ c :: r).takeWhile p) = u := by
  induction u with
  | nil => simp [List.takeWhile_cons, hc]
  | cons x xs ih =>
    have hx : p x = true := hu x (by simp)
    simp only [List.cons_append, List.takeWhile_cons, hx, if_true]
    rw [ih (fun a ha => hu a (by simp [ha]))]

theorem dropWhile_cons_neg {p : Char → Bool} {c : Char} {r : List Char}
    (hc : p c = false) : ((c :: r).dropWhile p) = c :: r := by
  simp [List.dropWhile_cons, hc]

theorem takeIdent_name_paren {n0 : Char} {nr r : List Char}
    (h0 : isIdentStart n0 = true) (hnr : ∀ c ∈ nr, isWordChar c = true) :
    takeIdent ((n0 :: nr) ++ '(' :: r) = some (n0 :: nr, '(' :: r) := by
  have hall : ∀ a ∈ n0 :: nr, isWordChar a = true := by
    intro a ha
    rcases List.mem_cons.mp ha with rfl | ha'
    · exact identStart_isWordChar h0
    · exact hnr a ha'
  unfold takeIdent
  rw [takeWhile_append_cons _ _ _ hall (by decide)]
  simp [h0, List.drop_left]

theorem takeWord1_name_paren {n0 : Char} {nr r : List Char}
    (h0 : isIdentStart n0 = true) (hnr : ∀ c ∈ nr, isWordChar c = true) :
    takeWord1 ((n0 :: nr) ++ '(' :: r) = some (n0 :: nr, '(' :: r) := by
  have hall : ∀ a ∈ n0 :: nr, isWordChar a = true := by
    intro a ha
    rcases List.mem_cons.mp ha with rfl | ha'
    · exact identStart_isWordChar h0
    · exact hnr a ha'
  unfold takeWord1
  rw [takeWhile_append_cons _ _ _ hall (by decide)]
  simp [List.drop_left]

theorem takeIdent_def {rest : List Char} :
    takeIdent ('d' :: 'e' :: 'f' :: ' ' :: rest) = some (['d', 'e', 'f'], ' ' :: rest) := by
  unfold takeIdent
  have h1 : isWordChar 'd' = true := by decide
  have h2 : isWordChar 'e' = true := by decide
  have h3 : isWordChar 'f' = true := by decide
  have h4 : isWordChar ' ' = false := by decide
  simp [List.takeWhile_cons, h1, h2, h3, h4]
  decide

theorem takeWord1_def {rest : List Char} :
    takeWord1 ('d' :: 'e' :: 'f' :: ' ' :: rest) = some (['d', 'e', 'f'], ' ' :: rest) := by
  unfold takeWord1
  have h1 : isWordChar 'd' = true := by decide
  have h2 : isWordChar 'e' = true := by decide
  have h3 : isWordChar 'f' = true := by decide
  have h4 : isWordChar ' ' = false := by decide
  simp [List.takeWhile_cons, h1, h2, h3, h4]

theorem ws1_space_name {n0 : Char} {nr r : List Char} (h0 : isIdentStart n0 = true) :
    ws1 (' ' :: ((n0 :: nr) ++ r)) = some ((n0 :: nr) ++ r) := by
  have h1 : ws1 (' ' :: ((n0 :: nr) ++ r)) = some (((n0 :: nr) ++ r).dropWhile isSpc) := rfl
  rw [h1, List.cons_append, dropWhile_cons_neg (identStart_not_spc h0)]

theorem parenNoClose_args {args r : List Char} (hargs : ∀ c ∈ args, c ≠ ')' ∧ c ≠ '\n') :
    parenNoClose ('(' :: (args ++ ')' :: r)) = some r := by
  have hall : ∀ a ∈ args, (fun c => !(c == ')')) a = true := by
    intro a ha
    simp only [Bool.not_eq_true', beq_eq_false_iff_ne, ne_eq]
    exact (hargs a ha).1
  have h1 : parenNoClose ('(' :: (args ++ ')' :: r)) =
      (match (args ++ ')' :: r).drop
          (((args ++ ')' :: r).takeWhile fun c => !(c == ')')).length) with
       | ')' :: r2 => some r2
       | _ => none) := rfl
  rw [h1, takeWhile_append_cons _ _ _ hall (by decide), List.drop_left]
  rfl

theorem parenNoClose_not_paren {c : Char} {r : List Char} (hc : c ≠ '(') :
    parenNoClose (c :: r) = none := by
  rw [parenNoClose.eq_def]
  split
  · rename_i heq
    injection heq with h1 _
    exact absurd h1 hc
  · rfl

theorem braceAfterWs_colon {b : List Char} : braceAfterWs (':' :: b) = none := by
  unfold braceAfterWs
  rw [dropWhile_cons_neg (by decide)]
  rfl

theorem lazyCloseColon_args {args b : List Char} (hargs : ∀ c ∈ args, c ≠ ')' ∧ c ≠ '\n') :
    lazyCloseColon (args ++ ')' :: ':' :: b) = some b := by
  induction args with
  | nil =>
    show lazyCloseColon (')' :: ':' :: b) = some b
    unfold lazyCloseColon
    rw [if_neg (by decide), if_pos rfl, dropWhile_cons_neg (by decide)]
    rfl
  | cons c cs ih =>
    have hc := hargs c (by simp)
    have ih' := ih fun a ha => hargs a (by simp [ha])
    rw [List.cons_append]
    unfold lazyCloseColon
    rw [if_neg hc.2, if_neg hc.1]
    exact ih'

theorem someOrElse {α : Type} (a : α) (x : Option α) : (some a <|> x) = some a := rfl

theorem noneOrElse {α : Type} (x : Option α) : ((none : Option α) <|> x) = x := rfl

theorem dropLit_ne_first {k0 : Char} {kr : List Char} {c : Char} {t : List Char}
    (h : (k0 == c) = false) : dropLit (k0 :: kr) (c :: t) = none := by
  show (if ((k0 == c) && kr.isPrefixOf t) = true
        then some ((c :: t).drop (k0 :: kr).length) else none) = none
  rw [h, Bool.false_and]
  rfl

theorem dropLit_ne_second {k0 k1 : Char} {kr : List Char} {c d : Char} {t : List Char}
    (h : (k1 == d) = false) : dropLit (k0 :: k1 :: kr) (c :: d :: t) = none := by
  show (if ((k0 == c) && ((k1 == d) && kr.isPrefixOf t)) = true
        then some ((c :: d :: t).drop (k0 :: k1 :: kr).length) else none) = none
  rw [h, Bool.false_and, Bool.and_false]
  rfl

theorem dropLit_public_d {t : List Char} : dropLit ['p', 'u', 'b', 'l', 'i', 'c'] ('d' :: t) = none :=
  dropLit_ne_first (by decide)

theorem dropLit_private_d {t : List Char} : dropLit ['p', 'r', 'i', 'v', 'a', 't', 'e'] ('d' :: t) = none :=
  dropLit_ne_first (by decide)

theorem dropLit_protected_d {t : List Char} : dropLit ['p', 'r', 'o', 't', 'e', 'c', 't', 'e', 'd'] ('d' :: t) = none :=
  dropLit_ne_first (by decide)

theorem dropLit_static_d {t : List Char} : dropLit ['s', 't', 'a', 't', 'i', 'c'] ('d' :: t) = none :=
  dropLit_ne_first (by decide)

theorem dropLit_final_d {t : List Char} : dropLit ['f', 'i', 'n', 'a', 'l'] ('d' :: t) = none :=
  dropLit_ne_first (by decide)

theorem dropLit_void_d {t : List Char} : dropLit ['v', 'o', 'i', 'd'] ('d' :: t) = none :=
  dropLit_ne_first (by decide)

theorem dropLit_function_d {t : List Char} : dropLit ['f', 'u', 'n', 'c', 't', 'i', 'o', 'n'] ('d' :: t) = none :=
  dropLit_ne_first (by decide)

theorem dropLit_const_d {t : List Char} : dropLit ['c', 'o', 'n', 's', 't'] ('d' :: t) = none :=
  dropLit_ne_first (by decide)

theorem dropLit_let_d {t : List Char} : dropLit ['l', 'e', 't'] ('d' :: t) = none :=
  dropLit_ne_first (by decide)

theorem dropLit_var_d {t : List Char} : dropLit ['v', 'a', 'r'] ('d' :: t) = none :=
  dropLit_ne_first (by decide)

theorem dropLit_qq_space {t : List Char} : dropLit [':', ':'] (' ' :: t) = none :=
  dropLit_ne_first (by decide)

theorem dropLit_public_cd {c : Char} {t : List Char} :
    dropLit ['p', 'u', 'b', 'l', 'i', 'c'] (c :: 'd' :: t) = none :=
  dropLit_ne_second (by decide)

theorem dropLit_private_cd {c : Char} {t : List Char} :
    dropLit ['p', 'r', 'i', 'v', 'a', 't', 'e'] (c :: 'd' :: t) = none :=
  dropLit_ne_second (by decide)

theorem dropLit_protected_cd {c : Char} {t : List Char} :
    dropLit ['p', 'r', 'o', 't', 'e', 'c', 't', 'e', 'd'] (c :: 'd' :: t) = none :=
  dropLit_ne_second (by decide)

theorem dropLit_static_cd {c : Char} {t : List Char} :
    dropLit ['s', 't', 'a', 't', 'i', 'c'] (c :: 'd' :: t) = none :=
  dropLit_ne_second (by decide)

theorem dropLit_final_cd {c : Char} {t : List Char} :
    dropLit ['f', 'i', 'n', 'a', 'l'] (c :: 'd' :: t) = none :=
  dropLit_ne_second (by decide)

theorem dropLit_void_cd {c : Char} {t : List Char} :
    dropLit ['v', 'o', 'i', 'd'] (c :: 'd' :: t) = none :=
  dropLit_ne_second (by decide)

theorem dropLit_function_cd {c : Char} {t : List Char} :
    dropLit ['f', 'u', 'n', 'c', 't', 'i', 'o', 'n'] (c :: 'd' :: t) = none :=
  dropLit_ne_second (by decide)

theorem dropLit_const_cd {c : Char} {t : List Char} :
    dropLit ['c', 'o', 'n', 's', 't'] (c :: 'd' :: t) = none :=
  dropLit_ne_second (by decide)

theorem dropLit_let_cd {c : Char} {t : List Char} :
    dropLit ['l', 'e', 't'] (c :: 'd' :: t) = none :=
  dropLit_ne_second (by decide)

theorem dropLit_var_cd {c : Char} {t : List Char} :
    dropLit ['v', 'a', 'r'] (c :: 'd' :: t) = none :=
  dropLit_ne_second (by decide)

theorem dropLit_def_cd {c : Char} {t : List Char} :
    dropLit ['d', 'e', 'f'] (c :: 'd' :: t) = none :=
  dropLit_ne_second (by decide)

theorem dropLit_def {rest : List Char} :
    dropLit ['d', 'e', 'f'] ('d' :: 'e' :: 'f' :: rest) = some rest := by
  simp [dropLit, List.isPrefixOf]

theorem dropWhile_spc_space {n0 : Char} {nr r : List Char} (h0 : isIdentStart n0 = true) :
    ((' ' :: ((n0 :: nr) ++ r)).dropWhile isSpc) = (n0 :: nr) ++ r := by
  simp only [List.dropWhile_cons]
  rw [if_pos (by decide), List.cons_append, dropWhile_cons_neg (identStart_not_spc h0)]

theorem parenNoClose_name {n0 : Char} {nr r : List Char} (h0 : isIdentStart n0 = true) :
    parenNoClose ((n0 :: nr) ++ r) = none := by
  rw [List.cons_append]
  exact parenNoClose_not_paren (identStart_ne h0 (by decide))

theorem takeIdent_not_word {c : Char} {t : List Char} (hw : isWordChar c = false) :
    takeIdent (c :: t) = none := by
  unfold takeIdent
  simp [List.takeWhile_cons, hw]

theorem takeWord1_not_word {c : Char} {t : List Char} (hw : isWordChar c = false) :
    takeWord1 (c :: t) = none := by
  unfold takeWord1
  simp [List.takeWhile_cons, hw]

theorem takeWhile_word_cD {c : Char} {rest : List Char} (hw : isWordChar c = true) :
    ((c :: 'd' :: 'e' :: 'f' :: ' ' :: rest).takeWhile isWordChar) = [c, 'd', 'e', 'f'] := by
  have h1 : isWordChar 'd' = true := by decide
  have h2 : isWordChar 'e' = true := by decide
  have h3 : isWordChar 'f' = true := by decide
  have h4 : isWordChar ' ' = false := by decide
  simp [List.takeWhile_cons, hw, h1, h2, h3, h4]

theorem takeIdent_cD_ident {c : Char} {rest : List Char} (hw : isWordChar c = true)
    (hs : isIdentStart c = true) :
    takeIdent (c :: 'd' :: 'e' :: 'f' :: ' ' :: rest) = some ([c, 'd', 'e', 'f'], ' ' :: rest) := by
  unfold takeIdent
  rw [takeWhile_word_cD hw]
  simp [hs]

theorem takeIdent_cD_notIdent {c : Char} {rest : List Char} (hw : isWordChar c = true)
    (hs : isIdentStart c = false) :
    takeIdent (c :: 'd' :: 'e' :: 'f' :: ' ' :: rest) = none := by
  unfold takeIdent
  rw [takeWhile_word_cD hw]
  simp [hs]

theorem takeWord1_cD {c : Char} {rest : List Char} (hw : isWordChar c = true) :
    takeWord1 (c :: 'd' :: 'e' :: 'f' :: ' ' :: rest) = some ([c, 'd', 'e', 'f'], ' ' :: rest) := by
  unfold takeWord1
  rw [takeWhile_word_cD hw]
  rfl

theorem tailA_shape {n0 : Char} {nr args b : List Char}
    (h0 : isIdentStart n0 = true) (hnr : ∀ ch ∈ nr, isWordChar ch = true)
    (hargs : ∀ ch ∈ args, ch ≠ ')' ∧ ch ≠ '\n') :
    tailA (' ' :: ((n0 :: nr) ++ '(' :: (args ++ ')' :: ':' :: b))) = none := by
  simp only [tailA, ws1_space_name h0, takeIdent_name_paren h0 hnr,
    dropWhile_cons_neg (show isSpc '(' = false by decide), parenNoClose_args hargs,
    braceAfterWs_colon]

theorem typA_D {n0 : Char} {nr args b : List Char}
    (h0 : isIdentStart n0 = true) (hnr : ∀ ch ∈ nr, isWordChar ch = true)
    (hargs : ∀ ch ∈ args, ch ≠ ')' ∧ ch ≠ '\n') :
    typA ('d' :: 'e' :: 'f' :: ' ' :: ((n0 :: nr) ++ '(' :: (args ++ ')' :: ':' :: b))) = none := by
  simp only [typA, dropLit_void_d, takeIdent_def, tailA_shape h0 hnr hargs, noneOrElse]

theorem finalOpt_D {n0 : Char} {nr args b : List Char}
    (h0 : isIdentStart n0 = true) (hnr : ∀ ch ∈ nr, isWordChar ch = true)
    (hargs : ∀ ch ∈ args, ch ≠ ')' ∧ ch ≠ '\n') :
    finalOpt ('d' :: 'e' :: 'f' :: ' ' :: ((n0 :: nr) ++ '(' :: (args ++ ')' :: ':' :: b))) = none := by
  simp only [finalOpt, dropLit_final_d, typA_D h0 hnr hargs, noneOrElse]

theorem staticOpt_D {n0 : Char} {nr args b : List Char}
    (h0 : isIdentStart n0 = true) (hnr : ∀ ch ∈ nr, isWordChar ch = true)
    (hargs : ∀ ch ∈ args, ch ≠ ')' ∧ ch ≠ '\n') :
    staticOpt ('d' :: 'e' :: 'f' :: ' ' :: ((n0 :: nr) ++ '(' :: (args ++ ')' :: ':' :: b))) = none := by
  simp only [staticOpt, dropLit_static_d, finalOpt_D h0 hnr hargs, noneOrElse]

theorem tryA_D {n0 : Char} {nr args b : List Char}
    (h0 : isIdentStart n0 = true) (hnr : ∀ ch ∈ nr, isWordChar ch = true)
    (hargs : ∀ ch ∈ args, ch ≠ ')' ∧ ch ≠ '\n') :
    tryA ('d' :: 'e' :: 'f' :: ' ' :: ((n0 :: nr) ++ '(' :: (args ++ ')' :: ':' :: b))) = none := by
  simp only [tryA, dropLit_public_d, dropLit_private_d, dropLit_protected_d, noneOrElse,
    staticOpt_D h0 hnr hargs]

theorem tryB_D {n0 : Char} {nr args b : List Char}
    (h0 : isIdentStart n0 = true) :
    tryB ('d' :: 'e' :: 'f' :: ' ' :: ((n0 :: nr) ++ '(' :: (args ++ ')' :: ':' :: b))) = none := by
  simp only [tryB, takeIdent_def, dropLit_qq_space, tailB, dropWhile_spc_space h0,
    parenNoClose_name h0, noneOrElse]

theorem tryC_d {t : List Char} : tryC ('d' :: t) = none := by
  simp only [tryC, dropLit_function_d]

theorem tryD_d {t : List Char} : tryD ('d' :: t) = none := by
  simp only [tryD, dropLit_const_d, dropLit_let_d, dropLit_var_d, noneOrElse]

theorem tryE_D {n0 : Char} {nr args b : List Char}
    (h0 : isIdentStart n0 = true) (hnr : ∀ ch ∈ nr, isWordChar ch = true)
    (hargs : ∀ ch ∈ args, ch ≠ ')' ∧ ch ≠ '\n') :
    tryE ('d' :: 'e' :: 'f' :: ' ' :: ((n0 :: nr) ++ '(' :: (args ++ ')' :: ':' :: b)))
      = some (n0 :: nr, b) := by
  simp only [tryE, dropLit_def, ws1_space_name h0, takeIdent_name_paren h0 hnr,
    dropWhile_cons_neg (show isSpc '(' = false by decide), lazyCloseColon_args hargs]

theorem matchAlts_D {n0 : Char} {nr args b : List Char}
    (h0 : isIdentStart n0 = true) (hnr : ∀ ch ∈ nr, isWordChar ch = true)
    (hargs : ∀ ch ∈ args, ch ≠ ')' ∧ ch ≠ '\n') :
    matchAlts ('d' :: 'e' :: 'f' :: ' ' :: ((n0 :: nr) ++ '(' :: (args ++ ')' :: ':' :: b)))
      = some (n0 :: nr, b) := by
  simp only [matchAlts, tryA_D h0 hnr hargs, tryB_D h0, tryC_d, tryD_d,
    tryE_D h0 hnr hargs, noneOrElse, someOrElse]

theorem typA_cD {cch n0 : Char} {nr args b : List Char}
    (h0 : isIdentStart n0 = true) (hnr : ∀ ch ∈ nr, isWordChar ch = true)
    (hargs : ∀ ch ∈ args, ch ≠ ')' ∧ ch ≠ '\n') :
    typA (cch :: 'd' :: 'e' :: 'f' :: ' ' :: ((n0 :: nr) ++ '(' :: (args ++ ')' :: ':' :: b)))
      = none := by
  by_cases hw : isWordChar cch = true
  · by_cases hs : isIdentStart cch = true
    · simp only [typA, dropLit_void_cd, takeIdent_cD_ident hw hs, tailA_shape h0 hnr hargs,
        noneOrElse]
    · rw [Bool.not_eq_true] at hs
      simp only [typA, dropLit_void_cd, takeIdent_cD_notIdent hw hs, noneOrElse]
  · rw [Bool.not_eq_true] at hw
    simp only [typA, dropLit_void_cd, takeIdent_not_word hw, noneOrElse]

theorem finalOpt_cD {cch n0 : Char} {nr args b : List Char}
    (h0 : isIdentStart n0 = true) (hnr : ∀ ch ∈ nr, isWordChar ch = true)
    (hargs : ∀ ch ∈ args, ch ≠ ')' ∧ ch ≠ '\n') :
    finalOpt (cch :: 'd' :: 'e' :: 'f' :: ' ' :: ((n0 :: nr) ++ '(' :: (args ++ ')' :: ':' :: b)))
      = none := by
  simp only [finalOpt, dropLit_final_cd, typA_cD h0 hnr hargs, noneOrElse]

theorem staticOpt_cD {cch n0 : Char} {nr args b : List Char}
    (h0 : isIdentStart n0 = true) (hnr : ∀ ch ∈ nr, isWordChar ch = true)
    (hargs : ∀ ch ∈ args, ch ≠ ')' ∧ ch ≠ '\n') :
    staticOpt (cch :: 'd' :: 'e' :: 'f' :: ' ' :: ((n0 :: nr) ++ '(' :: (args ++ ')' :: ':' :: b)))
      = none := by
  simp only [staticOpt, dropLit_static_cd, finalOpt_cD h0 hnr hargs, noneOrElse]

theorem tryA_cD {cch n0 : Char} {nr args b : List Char}
    (h0 : isIdentStart n0 = true) (hnr : ∀ ch ∈ nr, isWordChar ch = true)
    (hargs : ∀ ch ∈ args, ch ≠ ')' ∧ ch ≠ '\n') :
    tryA (cch :: 'd' :: 'e' :: 'f' :: ' ' :: ((n0 :: nr) ++ '(' :: (args ++ ')' :: ':' :: b)))
      = none := by
  simp only [tryA, dropLit_public_cd, dropLit_private_cd, dropLit_protected_cd, noneOrElse,
    staticOpt_cD h0 hnr hargs]

theorem tryB_cD {cch n0 : Char} {nr args b : List Char}
    (h0 : isIdentStart n0 = true) :
    tryB (cch :: 'd' :: 'e' :: 'f' :: ' ' :: ((n0 :: nr) ++ '(' :: (args ++ ')' :: ':' :: b)))
      = none := by
  by_cases hw : isWordChar cch = true
  · by_cases hs : isIdentStart cch = true
    · simp only [tryB, takeIdent_cD_ident hw hs, dropLit_qq_space, tailB,
        dropWhile_spc_space h0, parenNoClose_name h0, noneOrElse]
    · rw [Bool.not_eq_true] at hs
      simp only [tryB, takeIdent_cD_notIdent hw hs, tailB, noneOrElse]
  · rw [Bool.not_eq_true] at hw
    simp only [tryB, takeIdent_not_word hw, tailB, noneOrElse]

theorem tryC_cd {c : Char} {t : List Char} : tryC (c :: 'd' :: t) = none := by
  simp only [tryC, dropLit_function_cd]

theorem tryD_cd {c : Char} {t : List Char} : tryD (c :: 'd' :: t) = none := by
  simp only [tryD, dropLit_const_cd, dropLit_let_cd, dropLit_var_cd, noneOrElse]

theorem tryE_cd {c : Char} {t : List Char} : tryE (c :: 'd' :: t) = none := by
  simp only [tryE, dropLit_def_cd]

theorem tryF_cD {cch n0 : Char} {nr args b : List Char}
    (h0 : isIdentStart n0 = true) :
    tryF (cch :: 'd' :: 'e' :: 'f' :: ' ' :: ((n0 :: nr) ++ '(' :: (args ++ ')' :: ':' :: b)))
      = none := by
  by_cases hw : isWordChar cch = true
  · simp only [tryF, takeWord1_cD hw, dropWhile_spc_space h0, parenNoClose_name h0]
  · rw [Bool.not_eq_true] at hw
    simp only [tryF, takeWord1_not_word hw]

theorem matchAlts_cD {cch n0 : Char} {nr args b : List Char}
    (h0 : isIdentStart n0 = true) (hnr : ∀ ch ∈ nr, isWordChar ch = true)
    (hargs : ∀ ch ∈ args, ch ≠ ')' ∧ ch ≠ '\n') :
    matchAlts (cch :: 'd' :: 'e' :: 'f' :: ' ' :: ((n0 :: nr) ++ '(' :: (args ++ ')' :: ':' :: b)))
      = none := by
  simp only [matchAlts, tryA_cD h0 hnr hargs, tryB_cD h0, tryC_cd, tryD_cd, tryE_cd,
    tryF_cD h0, noneOrElse]

theorem scanNames_cD_mem {cch n0 : Char} {nr args b : List Char}
    (h0 : isIdentStart n0 = true) (hnr : ∀ ch ∈ nr, isWordChar ch = true)
    (hargs : ∀ ch ∈ args, ch ≠ ')' ∧ ch ≠ '\n') :
    (n0 :: nr) ∈ scanNames
      (cch :: 'd' :: 'e' :: 'f' :: ' ' :: ((n0 :: nr) ++ '(' :: (args ++ ')' :: ':' :: b))) := by
  simp only [scanNames, List.length_cons, scanAux, matchAlts_cD h0 hnr hargs,
    matchAlts_D h0 hnr hargs]
  exact List.mem_cons_self _ _

/-- C10, amended.  A line-anchored `def` makes rule 1 tag the snippet
`python`, so the composite def alternative only ever applies to def-shaped
occurrences that do not start a line; such an occurrence
`def <name>(<args>):` does contribute `<name>` whenever the preceding text
cannot combine into an overlapping composite-pattern match — here, whenever
the occurrence starts at the second character of the snippet (any first
character), `<args>` contains no `)` or newline, and `<name>` is not an
excluded keyword — processed under any non-python tag. -/
theorem C10_def_alternative_amended :
    ∀ (parse : List Char → PyParseOutcome) (cch n0 : Char) (nr args b : List Char)
      (lang : LanguageTag),
    isIdentStart n0 = true →
    (∀ ch ∈ nr, isWordChar ch = true) →
    (∀ ch ∈ args, ch ≠ ')' ∧ ch ≠ '\n') →
    lang ≠ .python →
    (n0 :: nr) ∉ keywords_to_exclude →
    (n0 :: nr) ∈ extract_functions parse
      (cch :: 'd' :: 'e' :: 'f' :: ' ' :: ((n0 :: nr) ++ '(' :: (args ++ ')' :: ':' :: b)))
      lang := by
  intro parse cch n0 nr args b lang h0 hnr hargs hlang hkw
  simp only [extract_functions]
  rw [if_neg hlang]
  refine mem_sortDedup.mpr (List.mem_filter.mpr ⟨?_, decide_eq_true hkw⟩)
  by_cases hm : hasMainCall
      (cch :: 'd' :: 'e' :: 'f' :: ' ' :: ((n0 :: nr) ++ '(' :: (args ++ ')' :: ':' :: b))) = true
  · rw [if_pos hm]
    exact List.mem_append_left _ (scanNames_cD_mem h0 hnr hargs)
  · rw [if_neg hm]
    exact scanNames_cD_mem h0 hnr hargs

/-- Witness for the amended C10: the snippet `"xdef g(a):"` is plaintext
(no rule fires) and `g` is extracted through the composite def
alternative. -/
theorem C10_def_alternative_amended_witness :
    ['g'] ∈ extract_functions astFail "xdef g(a):".data .plaintext :=
  C10_def_alternative_amended astFail 'x' 'g' [] ['a'] [] .plaintext
    (by decide) (by decide) (by decide) (by decide) (by decide)

example : guess_language "   \n\t def f():".data = .python := by decide
example : guess_language "a def f():".data = .plaintext := by decide
example : guess_language "def\nx".data = .python := by decide
example : guess_language "publicclass x".data = .plaintext := by decide
example : guess_language "public classes".data = .java := by decide
example : guess_language " using   namespace std;".data = .cpp := by decide
example : guess_language "exporting stuff".data = .javascript := by decide
example : guess_language "int\nmain".data = .cpp := by decide
example : guess_language "constx = (".data = .plaintext := by decide
example : guess_language "const x= (1)".data = .javascript := by decide
example : guess_language "  import os".data = .javascript := by decide
example : guess_language "#include<x>".data = .cpp := by decide
example : guess_language "x\n  public\nstatic void main".data = .java := by decide
example : guess_language "public  static  void  mainly".data = .java := by decide
example : pyDefFallback "def f(x):\n  def g(y):\n".data = ["f".data, "g".data] := by decide
example : pyDefFallback "  def f(:\ndef g(a):".data = ["g".data] := by decide
example : pyDefFallback "class A:\n  def m(self):pass".data = ["m".data] := by decide
example : pyDefFallback "xdef f(x):".data = [] := by decide
example : pyDefFallback "def f(x)  :".data = [] := by decide
example : pyDefFallback "   \ndef  f2 (a,b):x".data = ["f2".data] := by decide
example : pyDefFallback "def f(x):def h(y):".data = ["f".data] := by decide
example : hasMainCall "main()".data = false := by decide
example : hasMainCall "int main ()".data = true := by decide
example : hasMainCall "domain()".data = false := by decide
example : hasMainCall "x\nmain  (".data = true := by decide
example : extractCodeBlock "```python\ncode here\n```".data = some "code here\n".data := by decide
example : extractCodeBlock "text ```\nX``` more".data = some "X".data := by decide
example : extractCodeBlock "```a1\nX```".data = none := by decide
example : extractCodeBlock "```\n```".data = some [] := by decide
example : extractCodeBlock "no fences".data = none := by decide
example : extractCodeBlock "````\nY```".data = some "Y".data := by decide
